import Mathlib

/-!
Verification development for the RaspberryPiPython surveillance programs.

The Lean definitions below are a shallow embedding of the Python sources:

* `src/MotionDetectionSurveillance/video_recorder.py` — the motion-gated
  recorder class `VideoRecorder` (file naming, disk-space eviction,
  annotation timer, stop, button handler);
* `src/MotionDetectionSurveillance/video_surveillance.py` — the per-frame
  motion-gated state machine (`State`, contour filtering, transitions);
* `src/video_surveillance.py` and `src/cameraRecordVideo.py` — the
  fixed-block (hour-boundary) recorder variants (rotation duration,
  button handler).

Machine conventions: Python `datetime` values are embedded as records of
natural-number fields; wall-clock instants used by the surveillance loop
are embedded as absolute seconds (a natural number); Python string
comparison (used by `sorted(os.listdir(dir))`) is embedded as
code-point lexicographic comparison of the character lists; fallible
Python code (uncaught exceptions) is embedded with `Option`.
-/

namespace RPiSurveillance

/-! ### Lexicographic string order

Python compares `str` values code point by code point; `sorted` returns the
list in nondecreasing order of that comparison.  `lexLt` is that strict
comparison on the underlying character lists. -/

/-- Strict code-point lexicographic comparison of character lists,
the order Python uses to compare file-name strings. -/
def lexLt : List Char → List Char → Bool
  | [], [] => false
  | [], _ :: _ => true
  | _ :: _, [] => false
  | a :: as, b :: bs => if a < b then true else if b < a then false else lexLt as bs

/-- Strict lexicographic comparison of strings (Python `<` on `str`). -/
def strLt (s t : String) : Bool := lexLt s.data t.data

/-- Nonstrict string comparison used as the sort key for `sorted(...)`:
`a` comes no later than `b` when `b` is not strictly smaller. -/
def nameLe (a b : String) : Prop := lexLt b.data a.data = false

instance : DecidableRel nameLe := fun _ _ => instDecidableEqBool _ _

theorem lexLt_irrefl (l : List Char) : lexLt l l = false := by
  induction l with
  | nil => rfl
  | cons a as ih => simp [lexLt, ih]

theorem lexLt_asymm : ∀ {l₁ l₂ : List Char}, lexLt l₁ l₂ = true → lexLt l₂ l₁ = false
  | [], [], h => by simp [lexLt] at h
  | [], _ :: _, _ => rfl
  | _ :: _, [], h => by simp [lexLt] at h
  | a :: as, b :: bs, h => by
    simp only [lexLt] at h ⊢
    rcases lt_trichotomy a b with hab | hab | hab
    · simp [hab, not_lt.2 hab.le]
    · subst hab
      simp only [lt_irrefl, if_false] at h ⊢
      exact lexLt_asymm h
    · simp [hab, not_lt.2 hab.le] at h

theorem lexLt_conn : ∀ {l₁ l₂ : List Char},
    lexLt l₁ l₂ = false → lexLt l₂ l₁ = false → l₁ = l₂
  | [], [], _, _ => rfl
  | [], _ :: _, h, _ => by simp [lexLt] at h
  | _ :: _, [], _, h => by simp [lexLt] at h
  | a :: as, b :: bs, h, h2 => by
    simp only [lexLt] at h h2
    rcases lt_trichotomy a b with hab | hab | hab
    · simp [hab] at h
    · subst hab
      simp only [lt_irrefl, if_false] at h h2
      exact congrArg (a :: ·) (lexLt_conn h h2)
    · simp [hab, not_lt.2 hab.le] at h2

theorem lexLt_trans : ∀ {l₁ l₂ l₃ : List Char},
    lexLt l₁ l₂ = true → lexLt l₂ l₃ = true → lexLt l₁ l₃ = true
  | [], [], _, h, _ => by simp [lexLt] at h
  | [], _ :: _, [], _, h => by simp [lexLt] at h
  | [], _ :: _, _ :: _, _, _ => rfl
  | _ :: _, [], _, h, _ => by simp [lexLt] at h
  | _ :: _, _ :: _, [], _, h => by simp [lexLt] at h
  | a :: as, b :: bs, c :: cs, h, h2 => by
    simp only [lexLt] at h h2 ⊢
    rcases lt_trichotomy a b with hab | hab | hab
    · rcases lt_trichotomy b c with hbc | hbc | hbc
      · simp [lt_trans hab hbc]
      · subst hbc; simp [hab]
      · simp [hbc, not_lt.2 hbc.le] at h2
    · subst hab
      simp only [lt_irrefl, if_false] at h
      rcases lt_trichotomy a c with hac | hac | hac
      · simp [hac]
      · subst hac
        simp only [lt_irrefl, if_false] at h2 ⊢
        exact lexLt_trans h h2
      · simp [hac, not_lt.2 hac.le] at h2
    · simp [hab, not_lt.2 hab.le] at h

instance : IsTotal String nameLe :=
  ⟨fun a b => by
    by_cases h : lexLt b.data a.data = false
    · exact Or.inl h
    · refine Or.inr (lexLt_asymm ?_)
      exact Bool.of_not_eq_false h⟩

instance : IsTrans String nameLe :=
  ⟨fun a b c hab hbc => by
    unfold nameLe at hab hbc ⊢
    by_contra hca
    have hca' : lexLt c.data a.data = true := Bool.of_not_eq_false hca
    rcases Bool.eq_false_or_eq_true (lexLt b.data c.data) with h2 | h2
    · have h3 := lexLt_trans h2 hca'
      rw [hab] at h3
      exact Bool.false_ne_true h3
    · have hbc' : b.data = c.data := lexLt_conn h2 hbc
      rw [← hbc'] at hca'
      rw [hab] at hca'
      exact Bool.false_ne_true hca'⟩

instance : IsAntisymm String nameLe :=
  ⟨fun a b hab hba => by
    unfold nameLe at hab hba
    have h : a.data = b.data := lexLt_conn hba hab
    cases a
    cases b
    exact congrArg String.mk h⟩

/-! ### Timestamps and the strftime file name

`VideoRecorder.start` (src/MotionDetectionSurveillance/video_recorder.py,
lines 121-125) names the new video file
`now.strftime('%Y-%m-%d_%p_%I-%M-%S.h264')`: a 4-digit year, 2-digit month
and day, an AM/PM marker (`%p`), and the 12-hour clock hour (`%I`, which
renders hour 0 and hour 12 as `12`), minute and second, all zero padded. -/

/-- A wall-clock timestamp, the fields of a Python `datetime`. -/
structure Timestamp where
  year : ℕ
  month : ℕ
  day : ℕ
  hour : ℕ
  minute : ℕ
  second : ℕ
  deriving DecidableEq, Repr

/-- Zero padding to two digits, as `strftime` does for `%m %d %I %M %S`. -/
def pad2 (n : ℕ) : String := if n < 10 then "0" ++ toString n else toString n

/-- Zero padding to four digits, as `strftime` does for `%Y`. -/
def pad4 (n : ℕ) : String :=
  if n < 10 then "000" ++ toString n
  else if n < 100 then "00" ++ toString n
  else if n < 1000 then "0" ++ toString n
  else toString n

/-- The `%p` field: `AM` for hours 0-11, `PM` for hours 12-23. -/
def ampm (hour : ℕ) : String := if hour < 12 then "AM" else "PM"

/-- The `%I` field: the 12-hour clock hour, rendering 0 and 12 as 12. -/
def hour12 (hour : ℕ) : ℕ := if hour % 12 = 0 then 12 else hour % 12

/-- The file name computed by `VideoRecorder.start`
(`now.strftime('%Y-%m-%d_%p_%I-%M-%S.h264')`, video_recorder.py line 123). -/
def videoFileName (t : Timestamp) : String :=
  pad4 t.year ++ "-" ++ pad2 t.month ++ "-" ++ pad2 t.day ++ "_" ++
    ampm t.hour ++ "_" ++ pad2 (hour12 t.hour) ++ "-" ++ pad2 t.minute ++ "-" ++
    pad2 t.second ++ ".h264"

/-- The in-video annotation text `now.strftime('%Y-%m-%d %H:%M:%S')`
(video_recorder.py lines 111 and 131), on the 24-hour clock. -/
def annotText (t : Timestamp) : String :=
  pad4 t.year ++ "-" ++ pad2 t.month ++ "-" ++ pad2 t.day ++ " " ++
    pad2 t.hour ++ ":" ++ pad2 t.minute ++ ":" ++ pad2 t.second

/-- Chronological (field-lexicographic) strict order on timestamps,
the order in which `datetime` values compare in Python. -/
def tsLt (t u : Timestamp) : Bool :=
  t.year < u.year || (t.year == u.year &&
    (t.month < u.month || (t.month == u.month &&
      (t.day < u.day || (t.day == u.day &&
        (t.hour < u.hour || (t.hour == u.hour &&
          (t.minute < u.minute || (t.minute == u.minute &&
            t.second < u.second)))))))))

/-! ### Disk-space model and `VideoRecorder.ensure_space`

`ensure_space` (src/MotionDetectionSurveillance/video_recorder.py, lines
90-105) loops while the free space in the videos directory is below
`FREE_SPACE_GB` gigabytes, each time listing the directory, sorting the
names, deleting the file with the smallest name, and re-reading the free
space.  The directory is embedded as the list of its files (name and
size in bytes) together with the volume's free byte count; deleting a
file returns its size to the free pool.  `os.listdir` of an empty
directory makes `sorted(...)[0]` raise `IndexError`, embedded as `none`. -/

/-- One file of the videos directory: its name and its size in bytes. -/
structure FsFile where
  name : String
  size : ℕ
  deriving DecidableEq, Repr

/-- The videos directory: free bytes on the volume and the files present. -/
structure DirState where
  free : ℕ
  files : List FsFile
  deriving DecidableEq, Repr

/-- The `FREE_SPACE_GB` class constant (video_recorder.py line 52). -/
def FREE_SPACE_GB : ℕ := 10

/-- The free-space threshold in bytes: `gigabytes < FREE_SPACE_GB` with
`gigabytes = bytes / 1024**3` holds exactly when the byte count is below
`FREE_SPACE_GB * 1024**3`. -/
def FREE_SPACE_BYTES : ℕ := FREE_SPACE_GB * 1024 ^ 3

/-- `sorted(os.listdir(dir))`: the file names in nondecreasing
lexicographic order. -/
def listdirSorted (files : List FsFile) : List String :=
  List.insertionSort nameLe (files.map FsFile.name)

/-- `sorted(os.listdir(dir))[0]`: the lexically smallest file name, or
`none` (Python `IndexError`) when the directory is empty. -/
def oldestName (files : List FsFile) : Option String :=
  (listdirSorted files).head?

/-- Look up the directory entry for a given name (`os.remove` resolves the
path to the file it deletes). -/
def findFile (nm : String) (files : List FsFile) : Option FsFile :=
  files.find? (fun f => decide (f.name = nm))

/-- `os.remove(dir + oldest)`: drop the entry with the given name. -/
def removeFile (nm : String) (files : List FsFile) : List FsFile :=
  files.eraseP (fun f => decide (f.name = nm))

/-- `VideoRecorder.ensure_space` (video_recorder.py lines 90-105): while
free space is below the threshold, delete the lexically smallest-named
file and recompute free space.  Returns the final directory state and the
list of deleted names in deletion order, or `none` when the loop runs out
of files while still below the threshold (the uncaught `IndexError` of
`sorted(os.listdir(dir))[0]` on an empty directory). -/
def ensure_space (d : DirState) : Option (DirState × List String) :=
  if d.free < FREE_SPACE_BYTES then
    match oldestName d.files with
    | none => none
    | some nm =>
      match h2 : findFile nm d.files with
      | none => none
      | some f =>
        match ensure_space ⟨d.free + f.size, removeFile nm d.files⟩ with
        | none => none
        | some (d2, del) => some (d2, nm :: del)
  else some (d, [])
termination_by d.files.length
decreasing_by
  simp only [removeFile]
  have hf := List.mem_of_find?_eq_some h2
  have hp := List.find?_some h2
  have hlen := @List.length_eraseP_of_mem _ d.files f (fun g => decide (g.name = nm)) hf hp
  have hpos := List.length_pos_of_mem hf
  omega

/-! ### Recorder session state

The in-memory state `VideoRecorder` mutates: the `recording` flag (line
59), the armed annotation timer (line 60), and the camera's overlay text.
`update_time_annotation` (lines 107-114) fires from the timer: when
`recording` is set it writes the current time into the overlay, touches
the camera (`wait_recording(0)`) and re-arms the timer; when `recording`
is clear it does nothing at all.  `stop` (lines 140-149) clears the flag,
stops the camera and cancels the timer. -/

/-- The recorder's mutable session state. -/
structure RecState where
  recording : Bool
  timerArmed : Bool
  annotate_text : Option String
  deriving DecidableEq, Repr

/-- `VideoRecorder.update_time_annotation` as a state transformer.  The
two booleans report the side effects of the firing: whether a camera
write (`annotate_text` update plus `wait_recording(0)`) happened, and
whether a new timer was armed. -/
def annotationTick (now : Timestamp) (r : RecState) : RecState × Bool × Bool :=
  if r.recording then
    ({ recording := r.recording, timerArmed := true,
       annotate_text := some (annotText now) }, true, true)
  else (r, false, false)

/-- `VideoRecorder.stop` (video_recorder.py lines 140-149): clear the
`recording` flag, stop the camera, cancel the annotation timer. -/
def stop (r : RecState) : RecState :=
  { recording := false, timerArmed := false, annotate_text := r.annotate_text }

/-- `VideoRecorder.start` (video_recorder.py lines 116-138): run
`ensure_space` first; if it raises, the exception propagates and no file
is opened (`none`).  Otherwise the session opens: the flag and the
annotation timer are set and the camera starts recording to the file
named from the start timestamp.  Returns the directory after eviction,
the deleted names, the new session state, and the opened file name. -/
def start (d : DirState) (now : Timestamp) :
    Option (DirState × List String × RecState × String) :=
  match ensure_space d with
  | none => none
  | some (d2, del) =>
    some (d2, del,
      { recording := true, timerArmed := true,
        annotate_text := some (annotText now) },
      videoFileName now)

/-! ### The Rainbow-Hat button handler of the motion-gated recorder

`touch_a` (video_recorder.py lines 167-191).  Channel 2 (button C) beeps,
stops a recording in progress, clears the display and exits the process
with `sys.exit(0)`.  A channel above 2 prints a report, stops a recording
in progress, clears the display and then raises `ValueError`, which is
uncaught.  Channels 0 and 1 only print the channel number. -/

/-- Observable actions of the button handler, in program order. -/
inductive HatAction where
  | printChannel
  | beep
  | printUnexpected
  | stopRecording
  | clearDisplay
  | printExiting
  deriving DecidableEq, Repr

/-- How the handler invocation ends. -/
inductive HatOutcome where
  | exitZero
  | raiseValueError
  | returnNormally
  deriving DecidableEq, Repr

/-- `touch_a` of the motion-gated recorder: the actions it performs and
how it terminates, as a function of the channel and the recording flag. -/
def touch_a (channel : ℕ) (recording : Bool) : List HatAction × HatOutcome :=
  if channel = 2 then
    ([HatAction.printChannel, HatAction.beep] ++
      (if recording then [HatAction.stopRecording] else []) ++
      [HatAction.clearDisplay, HatAction.printExiting], HatOutcome.exitZero)
  else if 2 < channel then
    ([HatAction.printChannel, HatAction.printUnexpected] ++
      (if recording then [HatAction.stopRecording] else []) ++
      [HatAction.clearDisplay, HatAction.printExiting], HatOutcome.raiseValueError)
  else ([HatAction.printChannel], HatOutcome.returnNormally)

/-! ### The motion-gated surveillance loop

src/MotionDetectionSurveillance/video_surveillance.py, lines 135-189.
Each frame tick computes a candidate state: first a base state from the
time since the last observed motion (`IDLE` when
`elapsed_time.seconds > idle_timeout`, else `RECORDING`), then the
contour loop overwrites it with `ACTIVE` (and refreshes
`last_active_time`) for every contour of at least `min_area` whose
bounding-box origin lies outside the timestamp exclusion rectangle.
Finally the transition block (lines 175-189) applies the candidate:
`IDLE → ACTIVE` calls `VideoRecorder.start` (setting the recording
flag); a transition out of non-`IDLE` into `IDLE` calls
`VideoRecorder.stop` (clearing it).

Wall-clock instants are embedded as absolute seconds.  Python's
`timedelta.seconds` attribute is the seconds component of the duration —
the total number of seconds reduced modulo 86400 — not the total; the
embedding keeps that behavior (`(now - last) % 86400`). -/

/-- The `State` enumeration of the surveillance loop (lines 55-58). -/
inductive SurvState where
  | IDLE
  | RECORDING
  | ACTIVE
  deriving DecidableEq, Repr

/-- The configuration fields the loop reads from `conf.json`. -/
structure LoopConf where
  min_area : ℕ
  idle_timeout : ℕ
  x_min : ℕ
  x_max : ℕ
  y_min : ℕ
  y_max : ℕ
  deriving DecidableEq, Repr

/-- A contour found in the frame: its area and its bounding box
`(x, y, w, h)` from `cv2.boundingRect`. -/
structure Contour where
  area : ℕ
  x : ℕ
  y : ℕ
  w : ℕ
  h : ℕ
  deriving DecidableEq, Repr

/-- The loop's mutable variables at a tick boundary: the controller state,
the recorder's `recording` flag, and `last_active_time` (absolute
seconds; the initializer `datetime(MINYEAR, 1, 1)` is instant 0). -/
structure LoopState where
  state : SurvState
  recording : Bool
  last_active_time : ℕ
  deriving DecidableEq, Repr

/-- The loop's initial variables (lines 61 and 94): `IDLE`, no session,
`last_active_time = datetime(MINYEAR, 1, 1)`. -/
def initLoopState : LoopState :=
  { state := SurvState.IDLE, recording := false, last_active_time := 0 }

/-- `(timestamp - last_active_time).seconds`: the seconds component of
the elapsed `timedelta`, i.e. the elapsed seconds modulo 86400. -/
def elapsedSecondsComponent (now last : ℕ) : ℕ := (now - last) % 86400

/-- The base candidate state (lines 139-146): `IDLE` when the
`timedelta.seconds` reading exceeds `idle_timeout`, else `RECORDING`. -/
def baseState (c : LoopConf) (now last : ℕ) : SurvState :=
  if c.idle_timeout < elapsedSecondsComponent now last then SurvState.IDLE
  else SurvState.RECORDING

/-- Does the bounding-box origin fall inside the timestamp exclusion
rectangle (line 162)? -/
def inExclusionZone (c : LoopConf) (k : Contour) : Prop :=
  c.x_min ≤ k.x ∧ k.x ≤ c.x_max ∧ c.y_min ≤ k.y ∧ k.y ≤ c.y_max

instance (c : LoopConf) (k : Contour) : Decidable (inExclusionZone c k) :=
  instDecidableAnd

/-- The contour loop (lines 148-173): contours below `min_area` are
skipped; a contour outside the exclusion zone overwrites the candidate
with `ACTIVE` and sets `last_active_time` to the tick instant. -/
def scanContours (c : LoopConf) (now : ℕ) :
    List Contour → SurvState × ℕ → SurvState × ℕ
  | [], acc => acc
  | k :: rest, acc =>
    if k.area < c.min_area then scanContours c now rest acc
    else if inExclusionZone c k then scanContours c now rest acc
    else scanContours c now rest (SurvState.ACTIVE, now)

/-- The candidate state and updated `last_active_time` computed by one
tick (lines 139-173), before the transition block. -/
def tickCandidate (c : LoopConf) (now last : ℕ) (cnts : List Contour) :
    SurvState × ℕ :=
  scanContours c now cnts (baseState c now last, last)

/-- The transition block (lines 175-189): entering `ACTIVE` from `IDLE`
starts a session (recording flag set by `VideoRecorder.start`); a
candidate `IDLE` seen in a non-`IDLE` state stops it. -/
def applyTransition (s : LoopState) (cand : SurvState) (last2 : ℕ) : LoopState :=
  match cand with
  | SurvState.ACTIVE =>
    { state := SurvState.ACTIVE,
      recording := if s.state = SurvState.IDLE then true else s.recording,
      last_active_time := last2 }
  | SurvState.RECORDING =>
    { state := SurvState.RECORDING, recording := s.recording,
      last_active_time := last2 }
  | SurvState.IDLE =>
    if s.state = SurvState.IDLE then
      { state := s.state, recording := s.recording, last_active_time := last2 }
    else
      { state := SurvState.IDLE, recording := false, last_active_time := last2 }

/-- One full tick of the loop at instant `now` with contour list `cnts`. -/
def stepTick (c : LoopConf) (s : LoopState) (now : ℕ) (cnts : List Contour) :
    LoopState :=
  let p := tickCandidate c now s.last_active_time cnts
  applyTransition s p.1 p.2

/-- Run the loop over a list of ticks (instant, contours). -/
def runTicks (c : LoopConf) (s : LoopState) (ticks : List (ℕ × List Contour)) :
    LoopState :=
  ticks.foldl (fun acc t => stepTick c acc t.1 t.2) s

/-- A sample configuration: `min_area = 500`, `idle_timeout = 300`
seconds, exclusion rectangle `[0, 100] × [0, 100]`. -/
def sampleConf : LoopConf :=
  { min_area := 500, idle_timeout := 300,
    x_min := 0, x_max := 100, y_min := 0, y_max := 100 }

/-! ### The fixed-block (hour-boundary) recorder

src/video_surveillance.py lines 102-134 and src/cameraRecordVideo.py
lines 95-129: `start()` computes `duration = 60 - now.second`, replaces a
zero by 60, then adds `(59 - now.minute) * 60`; `record()` and
`continue_recording()` arm a timer for `duration` seconds whose firing
closes the file and calls `start()` again, chaining sessions forward.
The button handler (cameraRecordVideo.py lines 170-215,
video_surveillance.py lines 183-215): channel 0 calls `record()`
unconditionally; channel 1 calls `stop()` only when `recording` is set;
channels 2 and above stop if recording and exit the process. -/

/-- The rotation deadline computed by the fixed-block `start()` from the
wall-clock minute and second of the start instant. -/
def fixedBlockDuration (minute second : ℕ) : ℕ :=
  let d := 60 - second
  let d2 := if d = 0 then 60 else d
  d2 + (59 - minute) * 60

/-- The recorder-relevant outcome of one fixed-block button press:
whether `record()`/`start()` was invoked, whether `stop()` was invoked,
the `recording` flag after the handler, and how the handler ends. -/
structure FBResult where
  invokedStart : Bool
  invokedStop : Bool
  recording : Bool
  outcome : HatOutcome
  deriving DecidableEq, Repr

/-- The fixed-block button handler `touch_a` (cameraRecordVideo.py lines
170-215): channel 0 starts unconditionally, channel 1 stops only when
recording, channels 2 and above stop if recording and exit. -/
def fb_touch (channel : ℕ) (recording : Bool) : FBResult :=
  if channel = 0 then
    { invokedStart := true, invokedStop := false, recording := true,
      outcome := HatOutcome.returnNormally }
  else if channel = 1 then
    if recording then
      { invokedStart := false, invokedStop := true, recording := false,
        outcome := HatOutcome.returnNormally }
    else
      { invokedStart := false, invokedStop := false, recording := recording,
        outcome := HatOutcome.returnNormally }
  else if channel = 2 then
    { invokedStart := false, invokedStop := recording, recording := recording,
      outcome := HatOutcome.exitZero }
  else
    { invokedStart := false, invokedStop := recording, recording := recording,
      outcome := HatOutcome.exitZero }

/-! ### Helper lemmas about the eviction loop -/

theorem find?_append_first {α : Type} (p : α → Bool) (a : α) (l₁ l₂ : List α)
    (h1 : ∀ b ∈ l₁, ¬ p b = true) (h2 : p a = true) :
    List.find? p (l₁ ++ a :: l₂) = some a := by
  induction l₁ with
  | nil => simpa using List.find?_cons_of_pos l₂ h2
  | cons b bs ih =>
    rw [List.cons_append, List.find?_cons_of_neg _ (h1 b (List.mem_cons_self b bs))]
    exact ih (fun x hx => h1 x (List.mem_cons_of_mem b hx))

theorem findFile_name (nm : String) (files : List FsFile) (f : FsFile)
    (h : findFile nm files = some f) : f.name = nm := by
  have hq : List.find? (fun g => decide (g.name = nm)) files = some f := h
  have hp := @List.find?_some _ (fun g => decide (g.name = nm)) f files hq
  exact of_decide_eq_true hp

theorem findFile_of_mem_names (nm : String) (files : List FsFile)
    (h : nm ∈ files.map FsFile.name) :
    ∃ f, findFile nm files = some f ∧ f.name = nm ∧ f ∈ files := by
  obtain ⟨g, hg, hgnm⟩ := List.mem_map.mp h
  cases hfind : findFile nm files with
  | none =>
    exfalso
    have hq : List.find? (fun k => decide (k.name = nm)) files = none := hfind
    have hall := List.find?_eq_none.mp hq g hg
    exact hall (decide_eq_true hgnm)
  | some f =>
    have hq : List.find? (fun k => decide (k.name = nm)) files = some f := hfind
    exact ⟨f, rfl, findFile_name nm files f hfind, List.mem_of_find?_eq_some hq⟩

theorem removeFile_decomp (nm : String) (files : List FsFile) (f : FsFile)
    (h : findFile nm files = some f) :
    ∃ l₁ l₂, files = l₁ ++ f :: l₂ ∧ removeFile nm files = l₁ ++ l₂ ∧
      ∀ g ∈ l₁, g.name ≠ nm := by
  have hq : List.find? (fun g => decide (g.name = nm)) files = some f := h
  have hf := List.mem_of_find?_eq_some hq
  have hp := @List.find?_some _ (fun g => decide (g.name = nm)) f files hq
  obtain ⟨a, l₁, l₂, hnone, hpa, hsplit, herase⟩ :=
    @List.exists_of_eraseP _ (fun g => decide (g.name = nm)) files f hf hp
  have hfa : f = a := by
    have h2 := find?_append_first (fun g => decide (g.name = nm)) a l₁ l₂ hnone hpa
    rw [← hsplit] at h2
    rw [hq] at h2
    exact Option.some.inj h2
  subst hfa
  exact ⟨l₁, l₂, hsplit, herase, fun g hg hgnm => hnone g hg (decide_eq_true hgnm)⟩

theorem removeFile_names_erase (nm : String) (files : List FsFile) (f : FsFile)
    (h : findFile nm files = some f) :
    (removeFile nm files).map FsFile.name = (files.map FsFile.name).erase nm := by
  obtain ⟨l₁, l₂, hsplit, herase, hne⟩ := removeFile_decomp nm files f h
  have hfname : f.name = nm := findFile_name nm files f h
  have hnotmem : nm ∉ l₁.map FsFile.name := by
    intro hmem
    obtain ⟨g, hg, hgnm⟩ := List.mem_map.mp hmem
    exact hne g hg hgnm
  rw [herase, hsplit, List.map_append, List.map_append, List.map_cons,
    List.erase_append_right _ hnotmem, hfname, List.erase_cons_head]

theorem removeFile_sum (nm : String) (files : List FsFile) (f : FsFile)
    (h : findFile nm files = some f) :
    f.size + ((removeFile nm files).map FsFile.size).sum =
      ((files.map FsFile.size).sum) := by
  obtain ⟨l₁, l₂, hsplit, herase, _⟩ := removeFile_decomp nm files f h
  rw [herase, hsplit]
  simp [List.sum_append]
  omega

theorem removeFile_length (nm : String) (files : List FsFile) (f : FsFile)
    (h : findFile nm files = some f) :
    (removeFile nm files).length + 1 = files.length := by
  obtain ⟨l₁, l₂, hsplit, herase, _⟩ := removeFile_decomp nm files f h
  rw [herase, hsplit]
  simp
  omega

theorem insertionSort_erase (l : List String) (nm : String) (t : List String)
    (h : List.insertionSort nameLe l = nm :: t) :
    List.insertionSort nameLe (l.erase nm) = t := by
  have hperm : (List.insertionSort nameLe l).Perm l := List.perm_insertionSort nameLe l
  have e1 : ((List.insertionSort nameLe l).erase nm).Perm (l.erase nm) := hperm.erase nm
  rw [h, List.erase_cons_head] at e1
  have hs : List.Sorted nameLe (nm :: t) := by
    rw [← h]; exact List.sorted_insertionSort nameLe l
  have hst : List.Sorted nameLe t := (List.sorted_cons.mp hs).2
  have hs2 : List.Sorted nameLe (List.insertionSort nameLe (l.erase nm)) :=
    List.sorted_insertionSort nameLe (l.erase nm)
  exact List.eq_of_perm_of_sorted
    ((List.perm_insertionSort nameLe (l.erase nm)).trans e1.symm) hs2 hst

theorem ensure_space_of_ge (d : DirState) (h : FREE_SPACE_BYTES ≤ d.free) :
    ensure_space d = some (d, []) := by
  unfold ensure_space
  rw [if_neg (not_lt.mpr h)]

theorem ensure_space_step (d : DirState) (nm : String) (f : FsFile)
    (hlt : d.free < FREE_SPACE_BYTES)
    (h1 : oldestName d.files = some nm)
    (h2 : findFile nm d.files = some f) :
    ensure_space d =
      match ensure_space ⟨d.free + f.size, removeFile nm d.files⟩ with
      | none => none
      | some (d2, del) => some (d2, nm :: del) := by
  conv_lhs => rw [ensure_space.eq_def]
  rw [if_pos hlt]
  simp only [h1]
  split
  · next heq =>
    rw [h2] at heq
    cases heq
  · next f2 heq =>
    rw [h2] at heq
    cases heq
    rfl

theorem oldestName_cons (files : List FsFile) (nm : String)
    (h : oldestName files = some nm) :
    ∃ t, listdirSorted files = nm :: t := by
  unfold oldestName at h
  cases hls : listdirSorted files with
  | nil => rw [hls] at h; simp at h
  | cons a t =>
    rw [hls] at h
    simp at h
    subst h
    exact ⟨t, rfl⟩

theorem oldestName_mem (files : List FsFile) (nm : String)
    (h : oldestName files = some nm) : nm ∈ files.map FsFile.name := by
  obtain ⟨t, ht⟩ := oldestName_cons files nm h
  have hmem : nm ∈ listdirSorted files := by
    rw [ht]
    exact List.mem_cons_self nm t
  unfold listdirSorted at hmem
  exact (List.perm_insertionSort nameLe (files.map FsFile.name)).mem_iff.mp hmem

theorem ensure_space_some_aux :
    ∀ (n : ℕ) (d : DirState), d.files.length ≤ n →
      FREE_SPACE_BYTES ≤ d.free + (d.files.map FsFile.size).sum →
      ∃ p : DirState × List String, ensure_space d = some p ∧
        FREE_SPACE_BYTES ≤ p.1.free ∧ p.2 <+: listdirSorted d.files := by
  intro n
  induction n with
  | zero =>
    intro d hlen htot
    have hnil : d.files = [] := List.length_eq_zero.mp (Nat.le_zero.mp hlen)
    have hfree : FREE_SPACE_BYTES ≤ d.free := by
      rw [hnil] at htot
      simpa using htot
    exact ⟨(d, []), ensure_space_of_ge d hfree, hfree, List.nil_prefix⟩
  | succ n ih =>
    intro d hlen htot
    by_cases hfree : d.free < FREE_SPACE_BYTES
    · have hne : d.files ≠ [] := by
        intro hnil
        rw [hnil] at htot
        simp at htot
        omega
      have hnames : d.files.map FsFile.name ≠ [] := by
        simpa using hne
      obtain ⟨nm, hnm⟩ : ∃ nm, oldestName d.files = some nm := by
        unfold oldestName listdirSorted
        cases hls : List.insertionSort nameLe (d.files.map FsFile.name) with
        | nil =>
          exfalso
          have := (List.perm_insertionSort nameLe (d.files.map FsFile.name)).length_eq
          rw [hls] at this
          exact hnames (List.length_eq_zero.mp this.symm)
        | cons a t => exact ⟨a, rfl⟩
      obtain ⟨f, hfind, hfnm, hfmem⟩ :=
        findFile_of_mem_names nm d.files (oldestName_mem d.files nm hnm)
      have hlen2 : (removeFile nm d.files).length ≤ n := by
        have := removeFile_length nm d.files f hfind
        omega
      have hsum : d.free + f.size + ((removeFile nm d.files).map FsFile.size).sum
          = d.free + (d.files.map FsFile.size).sum := by
        have := removeFile_sum nm d.files f hfind
        omega
      obtain ⟨p, hp, hpfree, hppref⟩ :=
        ih ⟨d.free + f.size, removeFile nm d.files⟩ hlen2 (by
          show FREE_SPACE_BYTES ≤
            d.free + f.size + ((removeFile nm d.files).map FsFile.size).sum
          omega)
      refine ⟨(p.1, nm :: p.2), ?_, hpfree, ?_⟩
      · rw [ensure_space_step d nm f hfree hnm hfind, hp]
      · obtain ⟨t, ht⟩ := oldestName_cons d.files nm hnm
        have htail : listdirSorted (removeFile nm d.files) = t := by
          unfold listdirSorted
          rw [removeFile_names_erase nm d.files f hfind]
          exact insertionSort_erase (d.files.map FsFile.name) nm t (by
            unfold listdirSorted at ht
            exact ht)
        have hppref2 : p.2 <+: listdirSorted (removeFile nm d.files) := hppref
        rw [ht]
        rw [htail] at hppref2
        obtain ⟨r, hr⟩ := hppref2
        exact ⟨r, by rw [List.cons_append, hr]⟩
    · push_neg at hfree
      exact ⟨(d, []), ensure_space_of_ge d hfree, hfree, List.nil_prefix⟩

theorem ensure_space_none_aux :
    ∀ (n : ℕ) (d : DirState), d.files.length ≤ n →
      d.free + (d.files.map FsFile.size).sum < FREE_SPACE_BYTES →
      ensure_space d = none := by
  intro n
  induction n with
  | zero =>
    intro d hlen htot
    have hnil : d.files = [] := List.length_eq_zero.mp (Nat.le_zero.mp hlen)
    have hfree : d.free < FREE_SPACE_BYTES := by
      rw [hnil] at htot
      simpa using htot
    rw [ensure_space.eq_def, if_pos hfree]
    have : oldestName d.files = none := by
      unfold oldestName listdirSorted
      rw [hnil]
      rfl
    rw [this]
  | succ n ih =>
    intro d hlen htot
    have hfree : d.free < FREE_SPACE_BYTES := by omega
    cases hnil : d.files with
    | nil =>
      rw [ensure_space.eq_def, if_pos hfree]
      have : oldestName d.files = none := by
        unfold oldestName listdirSorted
        rw [hnil]
        rfl
      rw [this]
    | cons g rest =>
      have hnames : d.files.map FsFile.name ≠ [] := by
        rw [hnil]
        simp
      obtain ⟨nm, hnm⟩ : ∃ nm, oldestName d.files = some nm := by
        unfold oldestName listdirSorted
        cases hls : List.insertionSort nameLe (d.files.map FsFile.name) with
        | nil =>
          exfalso
          have := (List.perm_insertionSort nameLe (d.files.map FsFile.name)).length_eq
          rw [hls] at this
          exact hnames (List.length_eq_zero.mp this.symm)
        | cons a t => exact ⟨a, rfl⟩
      obtain ⟨f, hfind, hfnm, hfmem⟩ :=
        findFile_of_mem_names nm d.files (oldestName_mem d.files nm hnm)
      have hlen2 : (removeFile nm d.files).length ≤ n := by
        have h1 := removeFile_length nm d.files f hfind
        omega
      have hsum : f.size + ((removeFile nm d.files).map FsFile.size).sum
          = (d.files.map FsFile.size).sum := removeFile_sum nm d.files f hfind
      have hrec := ih ⟨d.free + f.size, removeFile nm d.files⟩ hlen2 (by
        show d.free + f.size + ((removeFile nm d.files).map FsFile.size).sum
          < FREE_SPACE_BYTES
        omega)
      rw [ensure_space_step d nm f hfree hnm hfind, hrec]

/-! ### The claims -/

/-- C1: the claim asserts that lexical order of the generated file names
equals chronological order of the start times.  It fails: `%I` renders
the midnight hour as `12`, so a recording started 2024-01-01 00:30:00
(12:30 AM) gets the file name `2024-01-01_AM_12-30-00.h264`, which is
lexically larger than `2024-01-01_AM_01-00-00.h264`, the name of the
chronologically later 01:00:00 start.  This theorem evaluates the code
at that failing input: the first timestamp is chronologically earlier
yet its file name is lexically larger. -/
theorem c1_filename_not_chronological :
    tsLt ⟨2024, 1, 1, 0, 30, 0⟩ ⟨2024, 1, 1, 1, 0, 0⟩ = true ∧
    videoFileName ⟨2024, 1, 1, 0, 30, 0⟩ = "2024-01-01_AM_12-30-00.h264" ∧
    videoFileName ⟨2024, 1, 1, 1, 0, 0⟩ = "2024-01-01_AM_01-00-00.h264" ∧
    strLt (videoFileName ⟨2024, 1, 1, 1, 0, 0⟩)
      (videoFileName ⟨2024, 1, 1, 0, 30, 0⟩) = true := by
  decide

/-- C2: the claim asserts that at every reachable tick boundary
`state = RECORDING` holds exactly when a session is open, and in
particular that the loop never sets `state = RECORDING` without
`VideoRecorder.start` having run.  It fails on the code: from the
initial state (`IDLE`, no session, `last_active_time =
datetime(MINYEAR, 1, 1)`), a single tick with no contours at a
wall-clock instant 60 seconds past midnight reads
`elapsed_time.seconds = 60 ≤ idle_timeout` (the `timedelta.seconds`
component wraps modulo 86400 even though the true elapsed time is
enormous, as the second conjunct records) and assigns
`state = RECORDING` while `recording` stays `false` — no session was
ever started. -/
theorem c2_recording_without_session :
    runTicks sampleConf initLoopState [(738523 * 86400 + 60, [])] =
      { state := SurvState.RECORDING, recording := false, last_active_time := 0 } ∧
    sampleConf.idle_timeout < 738523 * 86400 + 60 - initLoopState.last_active_time := by
  decide

/-- C3: the claim asserts the candidate state is `IDLE` whenever no
region survives filtering and `now - last_active_time` exceeds
`idle_timeout`, for all values including elapsed times over one day.
It fails on the code: with `idle_timeout = 300` and an elapsed time of
86500 seconds (one day plus 100 seconds, second conjunct), the code
reads `timedelta.seconds = 100` and computes `RECORDING`, not `IDLE`. -/
theorem c3_candidate_wraps_mod_day :
    tickCandidate sampleConf 86500 0 [] = (SurvState.RECORDING, 0) ∧
    sampleConf.idle_timeout < 86500 - 0 := by
  decide

/-- C4: for every directory state in which deleting all files would
raise free space to at least the threshold, `ensure_space` terminates
normally; on return the free space is at or above the threshold; the
deleted names form a prefix of the lexicographically sorted initial
listing, i.e. files are removed strictly oldest-first by name with free
space recomputed after each deletion; and when free space is already
at or above the threshold it returns at once deleting nothing. -/
theorem c4_ensure_space_correct (d : DirState)
    (htot : FREE_SPACE_BYTES ≤ d.free + (d.files.map FsFile.size).sum) :
    ∃ p : DirState × List String, ensure_space d = some p ∧
      FREE_SPACE_BYTES ≤ p.1.free ∧
      p.2 <+: listdirSorted d.files ∧
      (FREE_SPACE_BYTES ≤ d.free → p = (d, [])) := by
  obtain ⟨p, hp, h1, h2⟩ := ensure_space_some_aux d.files.length d le_rfl htot
  refine ⟨p, hp, h1, h2, fun hge => ?_⟩
  have hq := ensure_space_of_ge d hge
  rw [hq] at hp
  exact (Option.some.inj hp).symm

/-- Witness for C4 at the spec's own scenario: an empty directory with
15 GB free against the 10 GB threshold; `ensure_space` returns at once
with no deletion. -/
theorem c4_ensure_space_correct_witness :
    ∃ p : DirState × List String,
      ensure_space ⟨15 * 1024 ^ 3, []⟩ = some p ∧
      FREE_SPACE_BYTES ≤ p.1.free ∧
      p.2 <+: listdirSorted (⟨15 * 1024 ^ 3, []⟩ : DirState).files ∧
      (FREE_SPACE_BYTES ≤ (⟨15 * 1024 ^ 3, []⟩ : DirState).free →
        p = (⟨15 * 1024 ^ 3, []⟩, [])) :=
  c4_ensure_space_correct ⟨15 * 1024 ^ 3, []⟩ (by decide)

/-- C5: a fixed-block session started at wall-clock instant `t` (in
seconds, with minute `t / 60 % 60` and second `t % 60`) computes a
rotation duration of exactly `3600 - 60 * MM - SS` seconds — so
14:37:10 gives 1370 — and the chained session that `continue_recording`
starts after that duration begins exactly at the next hour boundary
`(t / 3600 + 1) * 3600`. -/
theorem c5_fixed_block_rotation :
    (∀ t : ℕ,
      fixedBlockDuration (t / 60 % 60) (t % 60)
        = 3600 - (60 * (t / 60 % 60) + t % 60) ∧
      t + fixedBlockDuration (t / 60 % 60) (t % 60) = (t / 3600 + 1) * 3600) ∧
    fixedBlockDuration 37 10 = 1370 := by
  constructor
  · intro t
    have hs : t % 60 < 60 := Nat.mod_lt _ (by norm_num)
    have hm : t / 60 % 60 < 60 := Nat.mod_lt _ (by norm_num)
    have h1 : t % 3600 / 60 = t / 60 % 60 := by
      have h0 := Nat.mod_mul_right_div_self t 60 60
      norm_num at h0
      exact h0
    have h2 : t % 3600 % 60 = t % 60 := Nat.mod_mod_of_dvd t (by norm_num)
    have h3 := Nat.div_add_mod (t % 3600) 60
    rw [h1, h2] at h3
    have h4 := Nat.div_add_mod t 3600
    have hd : fixedBlockDuration (t / 60 % 60) (t % 60)
        = 60 - t % 60 + (59 - t / 60 % 60) * 60 := by
      unfold fixedBlockDuration
      have hne : ¬ (60 - t % 60 = 0) := by omega
      simp [hne]
    rw [hd]
    exact ⟨by omega, by omega⟩
  · decide

/-- Witness for C5 at 14:37:10 (absolute second 52630): duration 1370,
next start at 15:00:00 (second 54000). -/
theorem c5_fixed_block_rotation_witness :
    (fixedBlockDuration (52630 / 60 % 60) (52630 % 60)
        = 3600 - (60 * (52630 / 60 % 60) + 52630 % 60) ∧
      52630 + fixedBlockDuration (52630 / 60 % 60) (52630 % 60)
        = (52630 / 3600 + 1) * 3600) ∧
    fixedBlockDuration 37 10 = 1370 :=
  ⟨c5_fixed_block_rotation.1 52630, c5_fixed_block_rotation.2⟩

/-- C6: when free space is below the threshold and even deleting every
file in the directory cannot reach it (in particular when the directory
holds no deletable file at all), `ensure_space` fails with an error
(the uncaught `IndexError`, embedded as `none`) instead of returning
normally, and the pending `start` aborts without opening a video
file. -/
theorem c6_exhaustion_aborts_start (d : DirState) (now : Timestamp)
    (h : d.free + (d.files.map FsFile.size).sum < FREE_SPACE_BYTES) :
    ensure_space d = none ∧ start d now = none := by
  have h1 := ensure_space_none_aux d.files.length d le_rfl h
  refine ⟨h1, ?_⟩
  unfold start
  rw [h1]

/-- Witness for C6: one small file, far too little total space; eviction
runs out of files and the pending start aborts. -/
theorem c6_exhaustion_aborts_start_witness :
    ensure_space ⟨0, [⟨"2024-01-01_AM_01-00-00.h264", 5⟩]⟩ = none ∧
    start ⟨0, [⟨"2024-01-01_AM_01-00-00.h264", 5⟩]⟩ ⟨2024, 1, 1, 12, 0, 0⟩ = none :=
  c6_exhaustion_aborts_start ⟨0, [⟨"2024-01-01_AM_01-00-00.h264", 5⟩]⟩
    ⟨2024, 1, 1, 12, 0, 0⟩ (by decide)

/-- C7: a contour whose bounding-box origin lies inside the exclusion
rectangle never flips the candidate to `ACTIVE` and never refreshes
`last_active_time`; when every sufficiently large contour lies in the
zone, the tick's candidate computation and the full tick coincide with
those of a tick that saw no motion at all. -/
theorem c7_exclusion_zone (c : LoopConf) (s : LoopState) (now : ℕ)
    (cnts : List Contour)
    (h : ∀ k ∈ cnts, k.area < c.min_area ∨ inExclusionZone c k) :
    tickCandidate c now s.last_active_time cnts
      = tickCandidate c now s.last_active_time [] ∧
    stepTick c s now cnts = stepTick c s now [] := by
  have key : ∀ (l : List Contour),
      (∀ k ∈ l, k.area < c.min_area ∨ inExclusionZone c k) →
      ∀ acc, scanContours c now l acc = acc := by
    intro l
    induction l with
    | nil => intro _ _; rfl
    | cons k rest ih =>
      intro hl acc
      have hrest := fun k2 hk2 => hl k2 (List.mem_cons_of_mem k hk2)
      by_cases ha : k.area < c.min_area
      · simp only [scanContours, if_pos ha]
        exact ih hrest acc
      · rcases hl k (List.mem_cons_self k rest) with hk | hk
        · exact absurd hk ha
        · simp only [scanContours, if_neg ha, if_pos hk]
          exact ih hrest acc
  have h1 : tickCandidate c now s.last_active_time cnts
      = tickCandidate c now s.last_active_time [] := by
    unfold tickCandidate
    rw [key cnts h]
    rfl
  exact ⟨h1, by unfold stepTick; rw [h1]⟩

/-- Witness for C7: a contour of area 600 (above `min_area = 500`)
whose origin (50, 50) lies inside the sample exclusion rectangle — the
tick equals a motionless tick. -/
theorem c7_exclusion_zone_witness :
    tickCandidate sampleConf 1000 initLoopState.last_active_time
        [⟨600, 50, 50, 10, 10⟩]
      = tickCandidate sampleConf 1000 initLoopState.last_active_time [] ∧
    stepTick sampleConf initLoopState 1000 [⟨600, 50, 50, 10, 10⟩]
      = stepTick sampleConf initLoopState 1000 [] :=
  c7_exclusion_zone sampleConf initLoopState 1000 [⟨600, 50, 50, 10, 10⟩]
    (by decide)

/-- C8: after `stop` has cleared the recording flag, a late firing of
the previously armed annotation callback performs no camera write, arms
no new timer, leaves the recorder state exactly as `stop` left it, and
(being a total function of that state) raises no error. -/
theorem c8_late_annotation_is_noop (r : RecState) (now : Timestamp) :
    annotationTick now (stop r) = (stop r, false, false) := by
  simp [annotationTick, stop]

/-- Witness for C8 on a concrete just-stopped session. -/
theorem c8_late_annotation_is_noop_witness :
    annotationTick ⟨2024, 1, 1, 12, 0, 0⟩
        (stop { recording := true, timerArmed := true, annotate_text := none })
      = (stop { recording := true, timerArmed := true, annotate_text := none },
         false, false) :=
  c8_late_annotation_is_noop
    { recording := true, timerArmed := true, annotate_text := none }
    ⟨2024, 1, 1, 12, 0, 0⟩

/-- C9 counterexample: the claim says a press on a channel above 2
terminates the process the same way the quit channel (2) does, but the
code ends channel 3 with an uncaught `ValueError` while channel 2 calls
`sys.exit(0)` — two different terminations. -/
theorem c9_counterexample :
    (touch_a 3 false).2 = HatOutcome.raiseValueError ∧
    (touch_a 2 false).2 = HatOutcome.exitZero ∧
    (touch_a 3 false).2 ≠ (touch_a 2 false).2 := by
  decide

/-- C9 (amended): a press on any channel above 2 reports the event,
stops the session exactly when one is recording, clears the display and
terminates the process — but by raising `ValueError`, not by the
`sys.exit(0)` the quit channel uses. -/
theorem c9_unexpected_channel_shutdown (channel : ℕ) (recording : Bool)
    (h : 2 < channel) :
    touch_a channel recording =
      ([HatAction.printChannel, HatAction.printUnexpected] ++
        (if recording then [HatAction.stopRecording] else []) ++
        [HatAction.clearDisplay, HatAction.printExiting],
       HatOutcome.raiseValueError) := by
  unfold touch_a
  have h2 : ¬ channel = 2 := by omega
  rw [if_neg h2, if_pos h]

/-- Witness for the amended C9 at channel 3 while recording. -/
theorem c9_unexpected_channel_shutdown_witness :
    touch_a 3 true =
      ([HatAction.printChannel, HatAction.printUnexpected,
        HatAction.stopRecording, HatAction.clearDisplay, HatAction.printExiting],
       HatOutcome.raiseValueError) := by
  have h := c9_unexpected_channel_shutdown 3 true (by decide)
  simpa using h

/-- C10: in fixed-block mode the start command is not guarded by the
recording flag — a channel-0 press invokes `record()`/`start()` whether
or not a session is already open (so with `recording = true` a second
`start_recording` is attempted) — while a channel-1 stop press with
`recording = false` is a no-op on the recorder. -/
theorem c10_start_unguarded_stop_guarded :
    (fb_touch 0 true).invokedStart = true ∧
    (fb_touch 0 true).recording = true ∧
    (fb_touch 0 false).invokedStart = true ∧
    fb_touch 1 false =
      { invokedStart := false, invokedStop := false, recording := false,
        outcome := HatOutcome.returnNormally } := by
  decide

end RPiSurveillance
